import Mathlib

/-!
Verification of the zwavejs2mqtt Gateway core against its specification.

This file gives a shallow embedding (in Lean 4) of the parts of
`src/lib/Gateway.js`, `src/lib/utils` (`sanitizeTopic`, `removeSlash`) and
`src/hass/configurations.js` that the specification's testable properties
talk about: the Discovered Map and its mutators, the payload transform
pipeline (`onValueChanged` envelope construction and
`Gateway.prototype.parsePayload`), the topic resolver
(`Gateway.prototype.valueTopic`), discovery classification
(`discoverClimates`, the Binary Sensor branch of `discoverValue`,
object-id disambiguation) and `publishDiscovery`.

JavaScript runtime values flowing through the pipeline are modelled by the
`JSVal` inductive; JS objects are association lists of (key, value) pairs
that keep insertion order, as JS string-keyed objects do.  Machine numbers
are modelled as rationals (no claim here depends on genuine float
semantics; the rationals cover every numeric literal the embedded code
manipulates).
-/

/-- Model of a JavaScript runtime value as it travels through the gateway
(payloads, discovery-payload fields, device values). `undefined` is JS `undefined`, `buf` a Node.js `Buffer` (its byte list). -/
inductive JSVal where
  | undefined : JSVal
  | null : JSVal
  | bool (b : Bool) : JSVal
  | num (n : ℚ) : JSVal
  | str (s : String) : JSVal
  | obj (fields : List (String × JSVal)) : JSVal
  | arr (elems : List JSVal) : JSVal
  | buf (bytes : List Nat) : JSVal

/-- JS `o[k] = v` on a string-keyed object: replace in place if the key is
present, otherwise append (JS objects keep insertion order). -/
def objSet [DecidableEq κ] (k : κ) (v : α) : List (κ × α) → List (κ × α)
  | [] => [(k, v)]
  | (k', v') :: rest =>
      if k' = k then (k, v) :: rest else (k', v') :: objSet k v rest

/-- JS `delete o[k]`. -/
def objDelete [DecidableEq κ] (k : κ) : List (κ × α) → List (κ × α)
  | [] => []
  | (k', v') :: rest =>
      if k' = k then rest else (k', v') :: objDelete k rest

/-- JS property lookup `o[k]` (as an `Option`; `none` is `undefined`). -/
def objGet [DecidableEq κ] (k : κ) : List (κ × α) → Option α
  | [] => none
  | (k', v') :: rest => if k' = k then some v' else objGet k rest

/-- JS `o.hasOwnProperty(k)`. -/
def objHas [DecidableEq κ] (k : κ) (o : List (κ × α)) : Bool :=
  (objGet k o).isSome

/-- The keys of a JS object, in order. -/
def objKeys (o : List (κ × α)) : List κ :=
  o.map Prod.fst

/-- Decimal digit character (`0 ≤ n ≤ 9` intended). -/
def decDigitChar (n : Nat) : Char := Char.ofNat (48 + n)

/-- Fuel-driven worker for `natDigs`; with fuel `> n` it computes the
decimal digits of `n`, most significant first. -/
def natDigsGo : Nat → Nat → List Char
  | 0, _ => []
  | fuel + 1, n =>
      if n < 10 then [decDigitChar n]
      else natDigsGo fuel (n / 10) ++ [decDigitChar (n % 10)]

/-- Decimal digits of a natural number, most significant first.  This
models how JavaScript stringifies the (non-negative integral) numbers the
gateway concatenates into ids and topics, e.g. `node.id + '-'`. -/
def natDigs (n : Nat) : List Char := natDigsGo (n + 1) n

/-- JS number-to-string coercion for a natural number. -/
def jsNatStr (n : Nat) : String := ⟨natDigs n⟩

/-- JS `String.prototype.startsWith`, modelled through the char lists. -/
def jsStartsWith (s pre : String) : Bool :=
  pre.data.isPrefixOf s.data

/-- JS `String.prototype.endsWith`, modelled through the char lists. -/
def jsEndsWith (s suf : String) : Bool :=
  suf.data.isSuffixOf s.data

/-- Whether `parseInt(str)` succeeds (is not `NaN`): after skipping
leading whitespace, an optional sign must be followed by a decimal
digit.  This models the `!isNaN(parseInt(str))` guards in
`sanitizeTopic` / `removeSlash`. -/
def jsParseIntOkChars : List Char → Bool
  | [] => false
  | c :: cs =>
      if c.isWhitespace then jsParseIntOkChars cs
      else if c = '+' ∨ c = '-' then
        match cs with
        | c2 :: _ => c2.isDigit
        | [] => false
      else c.isDigit

/-- `!isNaN(parseInt(str))` on a string. -/
def jsParseIntOk (s : String) : Bool := jsParseIntOkChars s.data

/-- The character class kept by `sanitizeTopic`'s final
`replace(/[^A-Za-z0-9-_À-ÖØ-öø-ÿ/]/g, '')`. -/
def sanitizeAllowedChar (c : Char) : Bool :=
  (65 ≤ c.toNat ∧ c.toNat ≤ 90) ∨ (97 ≤ c.toNat ∧ c.toNat ≤ 122) ∨
    (48 ≤ c.toNat ∧ c.toNat ≤ 57) ∨
    c = '-' ∨ c = '_' ∨ c = '/' ∨
    (0xC0 ≤ c.toNat ∧ c.toNat ≤ 0xD6) ∨
    (0xD8 ≤ c.toNat ∧ c.toNat ≤ 0xF6) ∨
    (0xF8 ≤ c.toNat ∧ c.toNat ≤ 0xFF)

/-- `utils.removeSlash`: strings whose `parseInt` succeeds pass through,
otherwise every `/` is replaced by `-`. -/
def removeSlash (s : String) : String :=
  if jsParseIntOk s then s
  else ⟨s.data.map fun c => if c = '/' then '-' else c⟩

/-- `utils.sanitizeTopic(str, sanitizeSlash)`: numeric-parsing or empty
strings pass through unchanged; otherwise optionally remove slashes, then
replace whitespace (`\s`) with `_` and strip the disallowed characters. -/
def sanitizeTopic (str : String) (sanitizeSlash : Bool) : String :=
  if jsParseIntOk str ∨ str = "" then str
  else
    let s1 := if sanitizeSlash then removeSlash str else str
    let s2 : String := ⟨s1.data.map fun c => if c.isWhitespace then '_' else c⟩
    ⟨s2.data.filter sanitizeAllowedChar⟩

example : sanitizeTopic "Living Room/Lamp" false = "Living_Room/Lamp" := by decide
example : sanitizeTopic "Living Room/Lamp" true = "Living_Room-Lamp" := by decide
example : jsNatStr 370 = "370" := by decide
example : jsStartsWith "11-37-0-x" "1-" = false := by decide

theorem natDigsGo_fuel_irrel :
    ∀ f1 f2 n, n < f1 → n < f2 → natDigsGo f1 n = natDigsGo f2 n := by
  intro f1
  induction f1 with
  | zero => intro f2 n h; omega
  | succ f ih =>
      intro f2 n h1 h2
      match f2, h2 with
      | g + 1, h2 =>
        simp only [natDigsGo]
        by_cases hn : n < 10
        · simp [hn]
        · have hdiv : n / 10 < n := Nat.div_lt_self (by omega) (by omega)
          simp only [hn, if_false]
          rw [ih g (n / 10) (by omega) (by omega)]

theorem natDigs_lt_ten {n : Nat} (h : n < 10) : natDigs n = [decDigitChar n] := by
  simp [natDigs, natDigsGo, h]

theorem natDigs_ge_ten {n : Nat} (h : ¬ n < 10) :
    natDigs n = natDigs (n / 10) ++ [decDigitChar (n % 10)] := by
  have hdiv : n / 10 < n := Nat.div_lt_self (by omega) (by omega)
  have h1 : natDigs n = natDigsGo n (n / 10) ++ [decDigitChar (n % 10)] := by
    simp [natDigs, natDigsGo, h]
  rw [h1, natDigsGo_fuel_irrel n (n / 10 + 1) (n / 10) (by omega) (by omega)]
  rfl

/-- Numeric value of a digit list, most significant digit first. -/
def digsVal (cs : List Char) : Nat :=
  cs.foldl (fun a c => a * 10 + (c.toNat - 48)) 0

theorem natDigsGo_foldl (fuel : Nat) :
    ∀ n a, n < fuel →
      (natDigsGo fuel n).foldl (fun a c => a * 10 + (c.toNat - 48)) a =
        a * 10 ^ (natDigsGo fuel n).length + n := by
  induction fuel with
  | zero => intro n a h; omega
  | succ f ih =>
      intro n a h
      by_cases hn : n < 10
      · have hd : (decDigitChar n).toNat = 48 + n := by
          interval_cases n <;> decide
        simp [natDigsGo, hn, List.foldl, hd]
      · have hdiv : n / 10 < n := Nat.div_lt_self (by omega) (by omega)
        simp only [natDigsGo, hn, if_false]
        have hm : (decDigitChar (n % 10)).toNat = 48 + n % 10 := by
          have : n % 10 < 10 := Nat.mod_lt _ (by omega)
          interval_cases h : (n % 10) <;> simp_all <;> decide
        rw [List.foldl_append, ih (n / 10) a (by omega)]
        simp [List.foldl, hm, List.length_append, Nat.pow_succ]
        ring_nf
        omega

theorem digsVal_natDigs (n : Nat) : digsVal (natDigs n) = n := by
  have := natDigsGo_foldl (n + 1) n 0 (by omega)
  simpa [digsVal, natDigs] using this

theorem natDigs_injective {m n : Nat} (h : natDigs m = natDigs n) : m = n := by
  have hm := digsVal_natDigs m
  have hn := digsVal_natDigs n
  rw [h] at hm
  omega

theorem jsNatStr_injective {m n : Nat} (h : jsNatStr m = jsNatStr n) : m = n := by
  apply natDigs_injective
  have hd := congrArg String.data h
  simpa [jsNatStr] using hd

theorem natDigs_mem_digit {n : Nat} {c : Char} (h : c ∈ natDigs n) :
    48 ≤ c.toNat ∧ c.toNat ≤ 57 := by
  have key : ∀ fuel m, m < fuel → ∀ c ∈ natDigsGo fuel m, 48 ≤ c.toNat ∧ c.toNat ≤ 57 := by
    intro fuel
    induction fuel with
    | zero => intro m h; omega
    | succ f ih =>
        intro m hm c hc
        by_cases hlt : m < 10
        · simp [natDigsGo, hlt] at hc
          subst hc
          have : (decDigitChar m).toNat = 48 + m := by interval_cases m <;> decide
          omega
        · have hdiv : m / 10 < m := Nat.div_lt_self (by omega) (by omega)
          simp only [natDigsGo, hlt, if_false, List.mem_append, List.mem_singleton] at hc
          rcases hc with hc | hc
          · exact ih (m / 10) (by omega) c hc
          · subst hc
            have hmod : m % 10 < 10 := Nat.mod_lt _ (by omega)
            have : (decDigitChar (m % 10)).toNat = 48 + m % 10 := by
              interval_cases h : (m % 10) <;> simp_all <;> decide
            omega
  exact key (n + 1) n (by omega) c h

theorem natDigs_ne_nil (n : Nat) : natDigs n ≠ [] := by
  by_cases h : n < 10
  · simp [natDigs_lt_ten h]
  · simp [natDigs_ge_ten h]


theorem mem_objKeys_objSet [DecidableEq κ] {o : List (κ × α)} {x k : κ} {v : α}
    (h : x ∈ objKeys (objSet k v o)) : x ∈ objKeys o ∨ x = k := by
  induction o with
  | nil =>
      right
      simpa [objSet, objKeys] using h
  | cons kv rest ih =>
      obtain ⟨k', v'⟩ := kv
      by_cases hk : k' = k
      · rw [objSet, if_pos hk] at h
        simp only [objKeys, List.map_cons, List.mem_cons] at h ⊢
        tauto
      · rw [objSet, if_neg hk] at h
        simp only [objKeys, List.map_cons, List.mem_cons] at h ⊢
        rcases h with h1 | h1
        · tauto
        · rcases ih (by simpa [objKeys] using h1) with h2 | h2
          · simp only [objKeys] at h2
            tauto
          · tauto

theorem objSet_keys_nodup [DecidableEq κ] {o : List (κ × α)} (k : κ) (v : α)
    (h : (objKeys o).Nodup) : (objKeys (objSet k v o)).Nodup := by
  induction o with
  | nil => simp [objSet, objKeys]
  | cons kv rest ih =>
      obtain ⟨k', v'⟩ := kv
      rw [objKeys, List.map_cons, List.nodup_cons] at h
      by_cases hk : k' = k
      · rw [objSet, if_pos hk, objKeys, List.map_cons, List.nodup_cons]
        subst hk
        exact ⟨h.1, h.2⟩
      · rw [objSet, if_neg hk, objKeys, List.map_cons, List.nodup_cons]
        refine ⟨fun hmem => ?_, ih h.2⟩
        rcases mem_objKeys_objSet hmem with h' | h'
        · exact h.1 h'
        · exact hk h'

theorem objDelete_sublist [DecidableEq κ] (k : κ) (o : List (κ × α)) :
    List.Sublist (objDelete k o) o := by
  induction o with
  | nil => simp [objDelete]
  | cons kv rest ih =>
      obtain ⟨k', v'⟩ := kv
      by_cases hk : k' = k
      · rw [objDelete, if_pos hk]
        exact List.sublist_cons_self (k', v') rest
      · rw [objDelete, if_neg hk]
        exact ih.cons₂ (k', v')

theorem objDelete_keys_nodup [DecidableEq κ] {o : List (κ × α)} (k : κ)
    (h : (objKeys o).Nodup) : (objKeys (objDelete k o)).Nodup :=
  List.Nodup.sublist (List.Sublist.map Prod.fst (objDelete_sublist k o)) h

/-- A Home-Assistant discovery descriptor as built by the Gateway
(`cfg` / `hassDevice` objects in `Gateway.js`).  `discovery_payload` is
the JS payload object; `values` the contributing value ids (without node
prefix); `mode_map`, `setpoint_topic`, `default_setpoint` and
`action_map` are the extra top-level properties synthesized by
`discoverClimates`. -/
structure HassDevice where
  type : String := ""
  object_id : String := ""
  discovery_payload : List (String × JSVal) := []
  values : List String := []
  mode_map : Option (List (String × JSVal)) := none
  fan_mode_map : Option (List (String × JSVal)) := none
  setpoint_topic : Option (List (Nat × String)) := none
  default_setpoint : Option String := none
  action_map : Option (List (Nat × JSVal)) := none
  persistent : Bool := false
  ignoreDiscovery : Bool := false
  discoveryTopic : String := ""

/-- The Discovered Map `this.discovered`: value id (with node prefix) →
owning descriptor, an insertion-ordered string-keyed JS object. -/
abbrev DiscMap := List (String × HassDevice)

/-- `Gateway.prototype.setDiscovery(nodeId, hassDevice, deleteDevice)`:
for every contributing value id `v`, the key is `nodeId + '-' + v`; when
`deleteDevice` is set and the key is present it is deleted, otherwise the
descriptor is assigned to the key. -/
def setDiscovery (nodeId : Nat) (hassDevice : HassDevice) (deleteDevice : Bool)
    (discovered : DiscMap) : DiscMap :=
  hassDevice.values.foldl
    (fun d v =>
      let vId := jsNatStr nodeId ++ "-" ++ v
      if deleteDevice ∧ objHas vId d then objDelete vId d
      else objSet vId hassDevice d)
    discovered

/-- `onNodeRemoved(node)` restricted to its effect on the Discovered Map:
delete every entry whose key starts with `node.id + '-'`.
`Gateway.prototype.rediscoverNode` reuses exactly this pruning before it
re-runs discovery. -/
def onNodeRemovedDiscovered (nodeId : Nat) (discovered : DiscMap) : DiscMap :=
  discovered.filter fun kv => ¬ jsStartsWith kv.1 (jsNatStr nodeId ++ "-")

/-- The primitive mutations of the Discovered Map.  Every code path that
writes `this.discovered` factors through these two: `discoverValue`,
`discoverDevice` and `rediscoverAll` mutate it only via
`publishDiscovery → setDiscovery`, and `rediscoverNode` runs the
node-removal pruning followed by such discovery calls. -/
inductive DiscoveredMutation where
  | set (nodeId : Nat) (dev : HassDevice) (deleteDevice : Bool)
  | removeNode (nodeId : Nat)

/-- Apply one primitive mutation. -/
def applyMutation : DiscoveredMutation → DiscMap → DiscMap
  | .set nodeId dev del, d => setDiscovery nodeId dev del d
  | .removeNode nodeId, d => onNodeRemovedDiscovered nodeId d

/-- Apply a sequence of mutations (the gateway's event handlers run them
one after the other, left to right). -/
def applyMutations (ops : List DiscoveredMutation) (d : DiscMap) : DiscMap :=
  ops.foldl (fun d op => applyMutation op d) d

/-- "At most one Descriptor owns any given value id": the keys of the
Discovered Map are pairwise distinct, so each value id is associated with
at most one descriptor. -/
def discoveredKeysNodup (d : DiscMap) : Prop :=
  (objKeys d).Nodup

theorem setDiscovery_keys_nodup (nodeId : Nat) (dev : HassDevice) (del : Bool)
    {d : DiscMap} (h : discoveredKeysNodup d) :
    discoveredKeysNodup (setDiscovery nodeId dev del d) := by
  rw [setDiscovery]
  induction dev.values generalizing d with
  | nil => exact h
  | cons v rest ih =>
      rw [List.foldl_cons]
      apply ih
      by_cases hc : del ∧ objHas (jsNatStr nodeId ++ "-" ++ v) d
      · simpa [hc] using objDelete_keys_nodup _ h
      · simpa [hc] using objSet_keys_nodup _ dev h

theorem onNodeRemoved_keys_nodup (nodeId : Nat) {d : DiscMap}
    (h : discoveredKeysNodup d) :
    discoveredKeysNodup (onNodeRemovedDiscovered nodeId d) :=
  List.Nodup.sublist (List.Sublist.map Prod.fst (List.filter_sublist d)) h

theorem applyMutation_keys_nodup (op : DiscoveredMutation) {d : DiscMap}
    (h : discoveredKeysNodup d) : discoveredKeysNodup (applyMutation op d) := by
  cases op with
  | set nodeId dev del => exact setDiscovery_keys_nodup nodeId dev del h
  | removeNode nodeId => exact onNodeRemoved_keys_nodup nodeId h

/-- C1: for every reachable gateway state (any sequence of Discovered-Map
mutations starting from the empty map built in `Gateway.prototype.start`)
the Discovered Map associates each value id with at most one descriptor
(its keys are pairwise distinct), and every mutating operation
(`setDiscovery` as called from `publishDiscovery`/`discoverValue`, node
removal, and the pruning step of `rediscoverNode`) preserves this
single-owner property. -/
theorem discovered_map_single_owner :
    (∀ ops : List DiscoveredMutation, discoveredKeysNodup (applyMutations ops []))
    ∧ ∀ (d : DiscMap) (op : DiscoveredMutation),
        discoveredKeysNodup d → discoveredKeysNodup (applyMutation op d) := by
  have run : ∀ (ops : List DiscoveredMutation) (d : DiscMap),
      discoveredKeysNodup d → discoveredKeysNodup (applyMutations ops d) := by
    intro ops
    induction ops with
    | nil => intro d h; exact h
    | cons op rest ih =>
        intro d h
        rw [applyMutations, List.foldl_cons]
        exact ih _ (applyMutation_keys_nodup op h)
  constructor
  · intro ops
    exact run ops [] (by simp [discoveredKeysNodup, objKeys])
  · intro d op h
    exact applyMutation_keys_nodup op h

theorem strData_append (s t : String) : (s ++ t).data = s.data ++ t.data := rfl

theorem digits_dash_not_prefix {a b : List Char}
    (ha : ∀ c ∈ a, 48 ≤ c.toNat ∧ c.toNat ≤ 57)
    (hb : ∀ c ∈ b, 48 ≤ c.toNat ∧ c.toNat ≤ 57)
    (hne : a ≠ b) (w u : List Char) :
    List.isPrefixOf (b ++ '-' :: w) (a ++ '-' :: u) = false := by
  induction a generalizing b with
  | nil =>
      cases b with
      | nil => exact absurd rfl hne
      | cons c b' =>
          have hc := hb c (by simp)
          have : (c == '-') = false := by
            apply beq_eq_false_iff_ne.2
            intro h
            subst h
            exact absurd hc (by decide)
          simp [List.isPrefixOf, this]
  | cons x a' ih =>
      cases b with
      | nil =>
          have hx := ha x (by simp)
          have : (('-' : Char) == x) = false := by
            apply beq_eq_false_iff_ne.2
            intro h
            rw [← h] at hx
            exact absurd hx (by decide)
          simp [List.isPrefixOf, this]
      | cons y b' =>
          by_cases hxy : y = x
          · subst hxy
            have hne' : a' ≠ b' := fun h => hne (by rw [h])
            have := ih (fun c hc => ha c (by simp [hc]))
              (fun c hc => hb c (by simp [hc])) hne' 
            simp [List.isPrefixOf, this]
          · have : (y == x) = false := beq_eq_false_iff_ne.2 hxy
            simp [List.isPrefixOf, this]

theorem jsStartsWith_otherNode {m n : Nat} (hmn : m ≠ n) (rest : String) :
    jsStartsWith (jsNatStr m ++ "-" ++ rest) (jsNatStr n ++ "-") = false := by
  have hdm : (jsNatStr m ++ "-" ++ rest).data = natDigs m ++ '-' :: rest.data := by
    rw [strData_append, strData_append]
    show (natDigs m ++ ['-']) ++ rest.data = _
    rw [List.append_assoc]
    rfl
  have hdn : (jsNatStr n ++ "-").data = natDigs n ++ '-' :: ([] : List Char) := rfl
  rw [jsStartsWith, hdm, hdn]
  exact digits_dash_not_prefix
    (fun c hc => natDigs_mem_digit hc)
    (fun c hc => natDigs_mem_digit hc)
    (fun h => hmn (natDigs_injective h)) _ _

/-- C10: removing node `n` deletes from the Discovered Map exactly the
entries of node `n`: every key starting with `n + '-'` is gone from the
result, while an entry keyed by `m + '-' + rest` of any other node
`m ≠ n` (including ids like `11-...` when `n = 1`) survives iff it was
there before. -/
theorem node_removal_prunes_exactly_n (disc : DiscMap) (n m : Nat)
    (rest : String) (dev : HassDevice) (hmn : m ≠ n) :
    (∀ k (d : HassDevice), jsStartsWith k (jsNatStr n ++ "-") = true →
        (k, d) ∉ onNodeRemovedDiscovered n disc)
    ∧ ((jsNatStr m ++ "-" ++ rest, dev) ∈ onNodeRemovedDiscovered n disc ↔
        (jsNatStr m ++ "-" ++ rest, dev) ∈ disc) := by
  constructor
  · intro k d hk hmem
    rw [onNodeRemovedDiscovered, List.mem_filter] at hmem
    simp [hk] at hmem
  · rw [onNodeRemovedDiscovered, List.mem_filter]
    simp [jsStartsWith_otherNode hmn rest]

/-- Witness for C10 at node ids 1 and 11 with a concrete two-entry map. -/
theorem node_removal_prunes_exactly_n_witness :
    (11 ≠ 1)
    ∧ ((∀ k (d : HassDevice), jsStartsWith k (jsNatStr 1 ++ "-") = true →
          (k, d) ∉ onNodeRemovedDiscovered 1
            [("1-37-0-currentValue", ({} : HassDevice)),
             ("11-37-0-currentValue", ({} : HassDevice))])
      ∧ ((jsNatStr 11 ++ "-" ++ "37-0-currentValue", ({} : HassDevice)) ∈
            onNodeRemovedDiscovered 1
              [("1-37-0-currentValue", ({} : HassDevice)),
               ("11-37-0-currentValue", ({} : HassDevice))] ↔
          (jsNatStr 11 ++ "-" ++ "37-0-currentValue", ({} : HassDevice)) ∈
            [("1-37-0-currentValue", ({} : HassDevice)),
             ("11-37-0-currentValue", ({} : HassDevice))])) :=
  ⟨by decide,
    node_removal_prunes_exactly_n
      [("1-37-0-currentValue", {}), ("11-37-0-currentValue", {})]
      1 11 "37-0-currentValue" {} (by decide)⟩

/-- Witness for C1's preservation part: one concrete mutation applied to a
concrete single-owner map. -/
theorem discovered_map_single_owner_witness :
    discoveredKeysNodup
      (applyMutation (.set 2 { values := ["37-0-targetValue"] } false)
        [("1-37-0-currentValue", {})]) :=
  discovered_map_single_owner.2 _ _ (by simp [discoveredKeysNodup, objKeys])

/-- ASCII lower-casing of one character, modelling
`String.prototype.toLocaleLowerCase` on the ASCII object-id strings the
gateway lower-cases. -/
def jsToLowerChar (c : Char) : Char :=
  if 65 ≤ c.toNat ∧ c.toNat ≤ 90 then Char.ofNat (c.toNat + 32) else c

/-- JS `str.toLocaleLowerCase()`. -/
def jsToLower (s : String) : String := ⟨s.data.map jsToLowerChar⟩

/-- Is `c` a decimal digit character (by code point)? -/
def isDigitCode (c : Char) : Bool := 48 ≤ c.toNat ∧ c.toNat ≤ 57

/-- The character-wise core of `sanitizeTopic` with `sanitizeSlash = true`
on a string that does not parse as an integer: slashes to dashes, then
whitespace to underscores, then strip disallowed characters. -/
def sanSlashSpaceFilter (cs : List Char) : List Char :=
  (((cs.map fun c => if c = '/' then '-' else c).map
      fun c => if c.isWhitespace then '_' else c).filter sanitizeAllowedChar)

theorem jsToLowerChar_digit {c : Char} (h : isDigitCode c = true) :
    jsToLowerChar c = c := by
  rw [isDigitCode] at h
  rw [jsToLowerChar, if_neg]
  simp only [decide_eq_true_eq] at h
  omega

theorem jsToLowerChar_underscore : jsToLowerChar '_' = '_' := by decide

theorem digit_not_ws {c : Char} (h : isDigitCode c = true) :
    c.isWhitespace = false := by
  rw [isDigitCode] at h
  simp only [decide_eq_true_eq] at h
  rw [Char.isWhitespace]
  by_contra hw
  simp only [Bool.not_eq_false, Bool.or_eq_true, decide_eq_true_eq] at hw
  rcases hw with ((h1 | h1) | h1) | h1 <;> (subst h1; revert h; decide)

theorem digit_allowed {c : Char} (h : isDigitCode c = true) :
    sanitizeAllowedChar c = true := by
  rw [isDigitCode] at h
  simp only [decide_eq_true_eq] at h
  rw [sanitizeAllowedChar]
  simp only [decide_eq_true_eq, Bool.decide_or, Bool.or_eq_true, decide_eq_true_eq]
  tauto

theorem digit_not_slash {c : Char} (h : isDigitCode c = true) : c ≠ '/' := by
  rw [isDigitCode] at h
  simp only [decide_eq_true_eq] at h
  intro hc
  subst hc
  revert h
  decide

/-- `sanSlashSpaceFilter` distributes over append. -/
theorem sanSlashSpaceFilter_append (u v : List Char) :
    sanSlashSpaceFilter (u ++ v) = sanSlashSpaceFilter u ++ sanSlashSpaceFilter v := by
  simp [sanSlashSpaceFilter, List.map_append, List.filter_append]

/-- `sanSlashSpaceFilter` fixes a list of digit characters. -/
theorem sanSlashSpaceFilter_digits {ds : List Char}
    (hd : ∀ c ∈ ds, isDigitCode c = true) :
    sanSlashSpaceFilter ds = ds := by
  induction ds with
  | nil => rfl
  | cons c cs ih =>
      have hc := hd c (by simp)
      have hcs : ∀ x ∈ cs, isDigitCode x = true := fun x hx => hd x (by simp [hx])
      have h1 : (if c = '/' then '-' else c) = c := if_neg (digit_not_slash hc)
      have h2 : (if c.isWhitespace then '_' else c) = c := by
        rw [digit_not_ws hc]
        simp
      have ihx := ih hcs
      rw [sanSlashSpaceFilter] at ihx ⊢
      rw [List.map_cons, h1, List.map_cons, h2, List.filter_cons, digit_allowed hc]
      simp only [if_true]
      rw [ihx]

/-- `sanSlashSpaceFilter` fixes an underscore followed by digits. -/
theorem sanSlashSpaceFilter_underscore_digits {ds : List Char}
    (hd : ∀ c ∈ ds, isDigitCode c = true) :
    sanSlashSpaceFilter ('_' :: ds) = '_' :: ds := by
  have hsplit : ('_' :: ds) = ['_'] ++ ds := rfl
  rw [hsplit, sanSlashSpaceFilter_append]
  rw [sanSlashSpaceFilter_digits hd]
  rfl

/-- The `parseInt` test on a string of the form `b ++ underscore ++ r`
does not look past the underscore. -/
theorem jsParseIntOkChars_underscore (b : List Char) (r : List Char) :
    jsParseIntOkChars (b ++ '_' :: r) = jsParseIntOkChars (b ++ ['_']) := by
  induction b with
  | nil => simp [jsParseIntOkChars]
  | cons c cs ih =>
      by_cases hw : c.isWhitespace
      · simp only [List.cons_append, jsParseIntOkChars, hw, if_true]
        exact ih
      · by_cases hs : c = '+' ∨ c = '-'
        · simp only [List.cons_append, jsParseIntOkChars, hw, if_false, hs, if_true]
          cases cs with
          | nil => simp
          | cons c2 cs2 => simp
        · simp only [List.cons_append, jsParseIntOkChars, hw, if_false, hs]
          simp

theorem map_toLower_digits {ds : List Char}
    (hd : ∀ c ∈ ds, isDigitCode c = true) : ds.map jsToLowerChar = ds := by
  induction ds with
  | nil => rfl
  | cons c cs ih =>
      rw [List.map_cons, jsToLowerChar_digit (hd c (by simp)),
        ih fun x hx => hd x (by simp [hx])]

theorem natDigs_isDigitCode (e : Nat) : ∀ c ∈ natDigs e, isDigitCode c = true := by
  intro c hc
  have := natDigs_mem_digit hc
  rw [isDigitCode]
  simp only [decide_eq_true_eq]
  omega

/-- The common prefix contributed by the object-id base once
`sanitizeTopic(·, true).toLocaleLowerCase()` has run over
`base + underscore + digits`. -/
def lowerSanPrefix (b : List Char) : List Char :=
  if jsParseIntOkChars (b ++ ['_']) then b.map jsToLowerChar
  else (sanSlashSpaceFilter b).map jsToLowerChar

theorem sanLower_suffix (base : String) (e : Nat) :
    (jsToLower (sanitizeTopic (base ++ "_" ++ jsNatStr e) true)).data =
      lowerSanPrefix base.data ++ '_' :: natDigs e := by
  set o1 : String := base ++ "_" ++ jsNatStr e with ho1
  have hdata : o1.data = base.data ++ '_' :: natDigs e := by
    rw [ho1, strData_append, strData_append]
    show (base.data ++ ['_']) ++ natDigs e = _
    rw [List.append_assoc]
    rfl
  have hdigits := natDigs_isDigitCode e
  have hne : ¬ (o1 = "") := by
    intro h
    have := congrArg String.data h
    rw [hdata] at this
    simp at this
  have hpi : jsParseIntOk o1 = jsParseIntOkChars (base.data ++ ['_']) := by
    rw [jsParseIntOk, hdata, jsParseIntOkChars_underscore]
  by_cases hT : jsParseIntOkChars (base.data ++ ['_']) = true
  · have hcond : jsParseIntOk o1 = true ∨ o1 = "" := Or.inl (by rw [hpi, hT])
    rw [sanitizeTopic, if_pos hcond]
    show (o1.data.map jsToLowerChar) = _
    rw [hdata, List.map_append, List.map_cons, jsToLowerChar_underscore,
      map_toLower_digits hdigits, lowerSanPrefix, if_pos hT]
  · have hcond : ¬ (jsParseIntOk o1 = true ∨ o1 = "") := by
      intro h
      rcases h with h | h
      · rw [hpi] at h; exact hT h
      · exact hne h
    rw [sanitizeTopic, if_neg hcond]
    have hrs : removeSlash o1 = ⟨o1.data.map fun c => if c = '/' then '-' else c⟩ := by
      rw [removeSlash, if_neg]
      rw [hpi]
      exact hT
    show ((((if true then removeSlash o1 else o1).data.map
        fun c => if c.isWhitespace then '_' else c).filter
          sanitizeAllowedChar).map jsToLowerChar) = _
    rw [if_pos rfl, hrs]
    show ((sanSlashSpaceFilter o1.data).map jsToLowerChar) = _
    rw [hdata, sanSlashSpaceFilter_append,
      sanSlashSpaceFilter_underscore_digits hdigits, List.map_append,
      List.map_cons, jsToLowerChar_underscore, map_toLower_digits hdigits,
      lowerSanPrefix, if_neg hT]

/-- Lines 2098–2107 of `Gateway.prototype.discoverValue`: append the
endpoint to the object id when the endpoint is non-zero (JS truthiness),
sanitize with slash replacement and lower-case, and if the node already
has a descriptor under `type + '_' + object_id`, append the endpoint once
more. -/
def finalObjectId (objectId typ : String) (endpoint : Nat)
    (hassDeviceKeys : List String) : String :=
  let o1 := if endpoint ≠ 0 then objectId ++ "_" ++ jsNatStr endpoint else objectId
  let o2 := jsToLower (sanitizeTopic o1 true)
  if (typ ++ "_" ++ o2) ∈ hassDeviceKeys then o2 ++ "_" ++ jsNatStr endpoint
  else o2

theorem finalObjectId_data (base typ : String) (e : Nat) (K : List String)
    (he : e ≠ 0) :
    (finalObjectId base typ e K).data =
        lowerSanPrefix base.data ++ '_' :: natDigs e
    ∨ (finalObjectId base typ e K).data =
        lowerSanPrefix base.data ++ '_' :: (natDigs e ++ '_' :: natDigs e) := by
  rw [finalObjectId]
  simp only [if_pos he]
  set o2 := jsToLower (sanitizeTopic (base ++ "_" ++ jsNatStr e) true) with ho2
  have hsuffix := sanLower_suffix base e
  by_cases hmem : (typ ++ "_" ++ o2) ∈ K
  · right
    rw [if_pos hmem, strData_append, strData_append, hsuffix]
    have h1 : ("_" : String).data = ['_'] := rfl
    have h2 : (jsNatStr e).data = natDigs e := rfl
    rw [h1, h2]
    simp [List.append_assoc]
  · left
    rw [if_neg hmem]
    exact hsuffix

theorem takeWhile_digits {ds : List Char}
    (hd : ∀ c ∈ ds, isDigitCode c = true) :
    List.takeWhile isDigitCode ds = ds := by
  induction ds with
  | nil => rfl
  | cons c cs ih =>
      rw [List.takeWhile_cons, hd c (by simp)]
      simp only [if_true]
      rw [ih fun x hx => hd x (by simp [hx])]

theorem takeWhile_digits_underscore {ds : List Char}
    (hd : ∀ c ∈ ds, isDigitCode c = true) (tl : List Char) :
    List.takeWhile isDigitCode (ds ++ '_' :: tl) = ds := by
  induction ds with
  | nil =>
      rw [List.nil_append, List.takeWhile_cons]
      have : isDigitCode '_' = false := by decide
      rw [this]
      simp
  | cons c cs ih =>
      rw [List.cons_append, List.takeWhile_cons, hd c (by simp)]
      simp only [if_true]
      rw [ih fun x hx => hd x (by simp [hx])]

/-- C9: two values on the same node whose discovery classification yields
the same object-id base and the same descriptor type, but which live on
distinct non-zero endpoints, always receive distinct final object ids
(whatever descriptors are already registered on the node at each of the
two discovery moments). -/
theorem object_id_endpoint_disambiguation (base typ : String)
    (e1 e2 : Nat) (K1 K2 : List String)
    (h1 : e1 ≠ 0) (h2 : e2 ≠ 0) (hne : e1 ≠ e2) :
    finalObjectId base typ e1 K1 ≠ finalObjectId base typ e2 K2 := by
  intro heq
  have hd := congrArg String.data heq
  have hdig1 := natDigs_isDigitCode e1
  have hdig2 := natDigs_isDigitCode e2
  have key : natDigs e1 = natDigs e2 := by
    rcases finalObjectId_data base typ e1 K1 h1 with hA | hA <;>
      rcases finalObjectId_data base typ e2 K2 h2 with hB | hB <;>
        (rw [hA, hB] at hd
         have hcan := List.append_cancel_left hd
         have teq : _ = _ := (List.cons.inj hcan).2
         have := congrArg (List.takeWhile isDigitCode) teq
         first
          | (rw [takeWhile_digits hdig1, takeWhile_digits hdig2] at this; exact this)
          | (rw [takeWhile_digits hdig1, takeWhile_digits_underscore hdig2] at this; exact this)
          | (rw [takeWhile_digits_underscore hdig1, takeWhile_digits hdig2] at this; exact this)
          | (rw [takeWhile_digits_underscore hdig1, takeWhile_digits_underscore hdig2] at this; exact this))
  exact hne (natDigs_injective key)

/-- Witness for C9: endpoints 1 and 2 with base `dimmer`, an empty and a
one-key descriptor table. -/
theorem object_id_endpoint_disambiguation_witness :
    ((1 : Nat) ≠ 0) ∧ ((2 : Nat) ≠ 0) ∧ ((1 : Nat) ≠ 2) ∧
      finalObjectId "dimmer" "light" 1 [] ≠
        finalObjectId "dimmer" "light" 2 ["light_dimmer_1"] :=
  ⟨by decide, by decide, by decide,
    object_id_endpoint_disambiguation "dimmer" "light" 1 2 [] ["light_dimmer_1"]
      (by decide) (by decide) (by decide)⟩

/-- The device-class identifiers of a node (`node.deviceClass`). -/
structure DeviceClassIds where
  basic : Nat := 0
  generic : Nat := 0
  specific : Nat := 0

/-- A Z-Wave value (`Z2MValueId`) with the fields the verified fragment
reads.  `id` is the value id without the node prefix, as it is keyed in
`node.values`; `states` are the (value, text) pairs of list-typed values. -/
structure ZValue where
  id : String := ""
  nodeId : Nat := 0
  commandClass : Nat := 0
  endpoint : Nat := 0
  property : String := ""
  propertyName : String := ""
  propertyKey : Option String := none
  propertyKeyName : Option String := none
  label : String := ""
  type : String := ""
  list : Bool := false
  states : List (Nat × String) := []
  value : JSVal := .undefined
  min : ℚ := 0
  max : ℚ := 0
  writeable : Bool := false
  stateless : Bool := false
  targetValue : Option String := none
  isCurrentValue : Bool := false
  unit : Option String := none

/-- A Z-Wave node (`Z2MNode`) with the fields the verified fragment
reads. -/
structure ZNode where
  id : Nat := 0
  name : Option String := none
  loc : Option String := none
  ready : Bool := true
  deviceId : String := ""
  deviceClass : Option DeviceClassIds := none
  values : List (String × ZValue) := []
  hassDevices : List (String × HassDevice) := []

/-- `CommandClasses['Thermostat Setpoint']` (0x43). -/
def ccThermostatSetpoint : Nat := 67

/-- `CommandClasses['Multilevel Sensor']` (0x31). -/
def ccMultilevelSensor : Nat := 49

/-- `CommandClasses['Thermostat Mode']` (0x40). -/
def ccThermostatMode : Nat := 64

/-- `CommandClasses['Thermostat Operating State']` (0x42). -/
def ccThermostatOperatingState : Nat := 66

/-- `hassCfg.thermostat` from `hass/configurations.js`. -/
def hassCfg_thermostat : HassDevice :=
  { type := "climate"
    object_id := "climate"
    discovery_payload := [
      ("min_temp", .num 5),
      ("max_temp", .num 40),
      ("temp_step", .num (1/2)),
      ("modes", .arr []),
      ("mode_state_topic", .bool true),
      ("mode_state_template", .str "\x7b\x7b value_json.value \x7d\x7d"),
      ("mode_command_topic", .bool true),
      ("current_temperature_topic", .bool true),
      ("current_temperature_template", .str "\x7b\x7b value_json.value \x7d\x7d"),
      ("temperature_state_topic", .bool true),
      ("temperature_state_template", .str "\x7b\x7b value_json.value \x7d\x7d"),
      ("temperature_command_topic", .bool true)] }

/-- The fixed Z-Wave-ordinal → Hass-mode translation table (`hassModes`
in `discoverClimates`); `none` entries are the JS `undefined` holes. -/
def hassModesTable : List (Option String) :=
  [some "off", some "heat", some "cool", some "auto",
   none, none,
   some "fan_only", none, some "dry", none,
   some "auto", some "heat", some "cool", some "off", some "heat", none]

/-- The Hass-accepted climate modes (`allowedModes`). -/
def allowedModesList : List String :=
  ["off", "heat", "cool", "auto", "dry", "fan_only"]

/-- The fixed operating-state → Hass-action table (`hassActionMap`). -/
def hassActionMapTable : List String :=
  ["idle", "heating", "cooling", "fan", "idle", "idle", "fan",
   "heating", "heating", "cooling", "heating", "heating"]

/-- The collision-reassignment loop of `discoverClimates`: while the
candidate mode is already in the payload's `modes` list, move to the next
allowed mode (starting from index 1, i.e. skipping `off`), giving up when
the allowed list is exhausted. -/
def reassignMode (modes : List String) : List String → String → String
  | [], hM => hM
  | a :: rest, hM => if hM ∈ modes then reassignMode modes rest a else hM

/-- JS array indexing `xs[i]` for an array of numbers. -/
def jsArrGetNum (xs : List Nat) (i : Nat) : JSVal :=
  match xs.get? i with
  | some v => .num v
  | none => .undefined

/-- Loop state of the `for (const m of availableModes)` loop in
`discoverClimates`; `modesList` mirrors the in-place pushes to
`config.discovery_payload.modes`. -/
structure ClimateLoopState where
  mode_map : List (String × JSVal) := []
  modesList : List String := []
  setpoint_topic : List (Nat × String) := []
  valuesAcc : List String := []

/-- One iteration of the mode loop of `discoverClimates`. -/
def climateModeStep (setpoints : List String)
    (nodeValues : List (String × ZValue)) (availableModes : List Nat)
    (st : ClimateLoopState) (m : Nat) : ClimateLoopState :=
  match hassModesTable.get? m with
  | none => st
  | some none => st
  | some (some hM0) =>
      let hM := reassignMode st.modesList (allowedModesList.drop 1) hM0
      let mode_map := objSet hM (jsArrGetNum availableModes m) st.mode_map
      let modesList := st.modesList ++ [hM]
      if 0 < m then
        match setpoints.find? fun v => jsEndsWith v ("-" ++ jsNatStr m) with
        | some setId =>
            if (objGet setId nodeValues).isSome then
              { mode_map := mode_map, modesList := modesList,
                setpoint_topic := objSet m setId st.setpoint_topic,
                valuesAcc := st.valuesAcc ++ [setId] }
            else
              { mode_map := mode_map, modesList := modesList,
                setpoint_topic := st.setpoint_topic, valuesAcc := st.valuesAcc }
        | none =>
            { mode_map := mode_map, modesList := modesList,
              setpoint_topic := st.setpoint_topic, valuesAcc := st.valuesAcc }
      else
        { mode_map := mode_map, modesList := modesList,
          setpoint_topic := st.setpoint_topic, valuesAcc := st.valuesAcc }

/-- `config.default_setpoint = config.setpoint_topic[1] ||
config.setpoint_topic[Object.keys(config.setpoint_topic)[0]]` with JS
truthiness (the empty string is falsy) and JS ascending ordering of
integer-like object keys. -/
def jsDefaultSetpoint (sp : List (Nat × String)) : Option String :=
  let fallback :=
    match (objKeys sp).min? with
    | some k => objGet k sp
    | none => none
  match objGet 1 sp with
  | some s => if s = "" then fallback else some s
  | none => fallback

/-- The strings of the payload's `modes` array. -/
def payloadModes (payload : List (String × JSVal)) : List String :=
  match objGet "modes" payload with
  | some (.arr xs) =>
      xs.filterMap fun v =>
        match v with
        | .str s => some s
        | _ => none
  | _ => []

/-- The trailing `if (actions.length > 0)` block of `discoverClimates`. -/
def climateActions (config : HassDevice) (actions : List String)
    (nodeValues : List (String × ZValue)) : Option HassDevice :=
  match actions.head? with
  | none => some config
  | some actionId =>
      match objGet actionId nodeValues with
      | none => none
      | some action =>
          let config :=
            { config with
                values := config.values ++ [actionId]
                discovery_payload :=
                  objSet "action_topic" (.str actionId) config.discovery_payload }
          let availableActions := action.states.map Prod.fst
          let action_map :=
            availableActions.foldl
              (fun am a =>
                match hassActionMapTable.get? a with
                | none => am
                | some ha => objSet a (JSVal.str ha) am)
              []
          some { config with action_map := some action_map }

/-- `Gateway.prototype.discoverClimates(node)`: synthesize a climate
descriptor for a thermostat node (generic device class 0x08) from its
setpoint / ambient-temperature / mode / operating-state values.
`nodeDevices` is the `allDevices[node.deviceId]` table; the result is the
config the function appends to it (`none` when the function returns
early or when a lookup that would make the JS body throw fails — the
body is wrapped in a try/catch that logs and discards). -/
def discoverClimates (node : ZNode) (nodeDevices : List HassDevice) :
    Option HassDevice :=
  match node.deviceClass with
  | none => none
  | some dc =>
    if dc.generic ≠ 0x08 then none
    else if 0 < nodeDevices.length ∧
        (nodeDevices.find? fun d => d.type = "climate").isSome then none
    else
      let setpoints := (node.values.filter fun kv =>
        kv.2.commandClass = ccThermostatSetpoint ∧
          kv.2.property = "setpoint").map Prod.fst
      let temperatures := (node.values.filter fun kv =>
        kv.2.commandClass = ccMultilevelSensor ∧
          kv.2.property = "Air temperature").map Prod.fst
      let modes := (node.values.filter fun kv =>
        kv.2.commandClass = ccThermostatMode ∧
          kv.2.property = "mode").map Prod.fst
      let actions := (node.values.filter fun kv =>
        kv.2.commandClass = ccThermostatOperatingState ∧
          kv.2.property = "state").map Prod.fst
      let temperatureId := temperatures.head?
      if setpoints.isEmpty then none
      else
        let config := { hassCfg_thermostat with values := [] }
        let config :=
          match temperatureId with
          | some tid =>
              { config with
                  discovery_payload :=
                    objSet "current_temperature_topic" (.str tid)
                      config.discovery_payload
                  values := config.values ++ [tid] }
          | none =>
              { config with
                  discovery_payload :=
                    objDelete "current_temperature_topic"
                      (objDelete "current_temperature_template"
                        config.discovery_payload) }
        match modes.head? with
        | some modeId =>
            match objGet modeId node.values with
            | none => none
            | some mode =>
                let config := { config with values := config.values ++ [modeId] }
                let payload :=
                  objSet "mode_command_topic" (.str (modeId ++ "/set"))
                    (objSet "mode_state_topic" (.str modeId)
                      config.discovery_payload)
                let availableModes := mode.states.map Prod.fst
                let st0 : ClimateLoopState :=
                  { modesList := payloadModes payload }
                let stF := availableModes.foldl
                  (climateModeStep setpoints node.values availableModes) st0
                let payload :=
                  objSet "modes" (.arr (stF.modesList.map JSVal.str)) payload
                let config :=
                  { config with
                      discovery_payload := payload
                      mode_map := some stF.mode_map
                      setpoint_topic := some stF.setpoint_topic
                      values := config.values ++ stF.valuesAcc
                      default_setpoint := jsDefaultSetpoint stF.setpoint_topic }
                climateActions config actions node.values
        | none =>
            let config :=
              { config with
                  default_setpoint := setpoints.head?
                  discovery_payload :=
                    objDelete "mode_state_template"
                      (objDelete "modes" config.discovery_payload) }
            climateActions config actions node.values

/-- The concrete thermostat node of the specification's climate example:
a mode enum with states 0=off / 1=heat / 2=cool and one setpoint per
non-off mode. -/
def thermostatNodeC3 : ZNode :=
  { id := 5
    ready := true
    deviceId := "271-0x0200-0x1000"
    deviceClass := some { basic := 4, generic := 8, specific := 6 }
    values := [
      ("64-0-mode",
        { id := "64-0-mode", nodeId := 5, commandClass := 64,
          property := "mode", propertyName := "mode", list := true,
          states := [(0, "off"), (1, "heat"), (2, "cool")] }),
      ("67-0-setpoint-1",
        { id := "67-0-setpoint-1", nodeId := 5, commandClass := 67,
          property := "setpoint", propertyName := "setpoint",
          propertyKey := some "1" }),
      ("67-0-setpoint-2",
        { id := "67-0-setpoint-2", nodeId := 5, commandClass := 67,
          property := "setpoint", propertyName := "setpoint",
          propertyKey := some "2" })] }

/-- C3: on a thermostat node whose mode enum has states
`[0=off, 1=heat, 2=cool]` and whose setpoints are `67-0-setpoint-1`
(mode 1) and `67-0-setpoint-2` (mode 2), `discoverClimates` synthesizes
`mode_map = {off: 0, heat: 1, cool: 2}`,
`setpoint_topic = {1: '67-0-setpoint-1', 2: '67-0-setpoint-2'}` and
`default_setpoint = '67-0-setpoint-1'`. -/
theorem discoverClimates_thermostat_example :
    ∃ cfg, discoverClimates thermostatNodeC3 [] = some cfg
      ∧ cfg.mode_map =
          some [("off", JSVal.num 0), ("heat", JSVal.num 1),
            ("cool", JSVal.num 2)]
      ∧ cfg.setpoint_topic =
          some [(1, "67-0-setpoint-1"), (2, "67-0-setpoint-2")]
      ∧ cfg.default_setpoint = some "67-0-setpoint-1" :=
  ⟨_, rfl, rfl, rfl, rfl⟩

/-- The per-value override entry of the gateway config
(`valueConf` in `Gateway.js`): an entry of `config.values`, matched by
device id and value id (without node prefix). -/
structure ValueConf where
  device : String := ""
  value_id : String := ""
  topic : Option String := none
  postOperation : Option String := none
  parseSend : Bool := false
  sendFunction : Option String := none
  parseReceive : Bool := false
  receiveFunction : Option String := none
  device_class : Option String := none
  icon : Option String := none

/-- Modelled from the spec: `hassCfg.binary_sensor`, the generic
binary-sensor configuration referenced by `getBinarySensorConfig` and by
the default branch of `discoverValue`'s Binary Sensor case.  The
`hass/configurations.js` snapshot under `src/` predates this generic
entry (it only has the per-type `binary_sensor_*` entries); per the
spec's polarity table the base polarity is normal
(`payload_on = true`, `payload_off = false`). -/
def hassCfg_binary_sensor : HassDevice :=
  { type := "binary_sensor"
    object_id := "binary_sensor"
    discovery_payload := [
      ("payload_on", .bool true),
      ("payload_off", .bool false),
      ("value_template", .str "\x7b\x7b value_json.value \x7d\x7d")] }

/-- Modelled from the spec: `Constants.deviceClass.sensor_binary`
device-class names (`lib/Constants.js` is not among the provided
sources); the spec's Binary Sensor table maps contact/water → moisture,
co/co2/tamper → safety, alarm → problem, router → connectivity,
battery_low → battery. -/
def sensorBinaryMOISTURE : String := "moisture"

/-- Modelled from the spec: see `sensorBinaryMOISTURE`. -/
def sensorBinarySAFETY : String := "safety"

/-- Modelled from the spec: see `sensorBinaryMOISTURE`. -/
def sensorBinaryPROBLEM : String := "problem"

/-- Modelled from the spec: see `sensorBinaryMOISTURE`. -/
def sensorBinaryCONNECTIVITY : String := "connectivity"

/-- Modelled from the spec: see `sensorBinaryMOISTURE`. -/
def sensorBinaryBATTERY : String := "battery"

/-- `getBinarySensorConfig(devClass, reversePayload)`: copy the generic
binary-sensor configuration, set its device class, and if requested
reverse the on/off payloads (`payload_on = false`, `payload_off =
true`). -/
def getBinarySensorConfig (devClass : String) (reversePayload : Bool) :
    HassDevice :=
  let cfg := hassCfg_binary_sensor
  let payload := objSet "device_class" (.str devClass) cfg.discovery_payload
  let payload :=
    if reversePayload then
      objSet "payload_off" (.bool true)
        (objSet "payload_on" (.bool false) payload)
    else payload
  { cfg with discovery_payload := payload }

/-- The `CommandClasses['Binary Sensor']` (0x30) case of
`Gateway.prototype.discoverValue` (the `sensorTypeName` sub-dispatch):
lower-case and sanitize the property name, select the device-class /
polarity configuration (only `lock` reverses the payloads; an unlisted
name such as `motion` falls back to the plain binary-sensor
configuration), then apply the per-value `device_class` override. -/
def discoverValueBinarySensor (valueId : ZValue)
    (valueConf : Option ValueConf) : HassDevice :=
  let stn0 := valueId.property
  let sensorTypeName :=
    if stn0 = "" then stn0 else sanitizeTopic (jsToLower stn0) true
  let cfg :=
    if sensorTypeName = "presence" ∨ sensorTypeName = "smoke" ∨
        sensorTypeName = "gas" then
      getBinarySensorConfig sensorTypeName false
    else if sensorTypeName = "lock" then
      getBinarySensorConfig sensorTypeName true
    else if sensorTypeName = "contact" ∨ sensorTypeName = "water" then
      getBinarySensorConfig sensorBinaryMOISTURE false
    else if sensorTypeName = "co" ∨ sensorTypeName = "co2" ∨
        sensorTypeName = "tamper" then
      getBinarySensorConfig sensorBinarySAFETY false
    else if sensorTypeName = "alarm" then
      getBinarySensorConfig sensorBinaryPROBLEM false
    else if sensorTypeName = "router" then
      getBinarySensorConfig sensorBinaryCONNECTIVITY false
    else if sensorTypeName = "battery_low" then
      getBinarySensorConfig sensorBinaryBATTERY false
    else hassCfg_binary_sensor
  let cfg := { cfg with object_id := sensorTypeName }
  match valueConf with
  | some vc =>
      match vc.device_class with
      | some dc =>
          { cfg with
              discovery_payload :=
                objSet "device_class" (.str dc) cfg.discovery_payload
              object_id := dc }
      | none => cfg
  | none => cfg

/-- C4: a Binary Sensor value with property `lock` yields a
binary-sensor descriptor with reversed polarity
(`payload_on = false`, `payload_off = true`); one with property
`motion` yields the normal polarity (`payload_on = true`,
`payload_off = false`). -/
theorem binary_sensor_lock_motion_polarity :
    ((discoverValueBinarySensor { property := "lock", commandClass := 48 }
        none).type = "binary_sensor"
      ∧ objGet "payload_on"
          (discoverValueBinarySensor { property := "lock", commandClass := 48 }
            none).discovery_payload = some (.bool false)
      ∧ objGet "payload_off"
          (discoverValueBinarySensor { property := "lock", commandClass := 48 }
            none).discovery_payload = some (.bool true))
    ∧ ((discoverValueBinarySensor { property := "motion", commandClass := 48 }
        none).type = "binary_sensor"
      ∧ objGet "payload_on"
          (discoverValueBinarySensor { property := "motion", commandClass := 48 }
            none).discovery_payload = some (.bool true)
      ∧ objGet "payload_off"
          (discoverValueBinarySensor { property := "motion", commandClass := 48 }
            none).discovery_payload = some (.bool false)) :=
  ⟨⟨rfl, rfl, rfl⟩, ⟨rfl, rfl, rfl⟩⟩

/-- Worker for `jsReplaceAll`: scan left to right, replacing each
non-overlapping occurrence of `pat` (non-empty) by `repl`; `fuel` is the
input length, one unit per consumed character. -/
def replaceAllGo (pat repl : List Char) : Nat → List Char → List Char
  | 0, s => s
  | fuel + 1, s =>
      match s with
      | [] => []
      | c :: cs =>
          if pat.isPrefixOf (c :: cs) then
            repl ++ replaceAllGo pat repl fuel (cs.drop (pat.length - 1))
          else c :: replaceAllGo pat repl fuel cs

/-- JS `str.replace(/pat/g, repl)` for a literal pattern: replace every
non-overlapping occurrence, scanning left to right. -/
def jsReplaceAll (s pat repl : String) : String :=
  if pat = "" then s
  else ⟨replaceAllGo pat.data repl.data s.data.length s.data⟩

example :
    jsReplaceAll "a value_json.value b value_json.value" "value_json.value"
      "value == \x27true\x27" =
    "a value == \x27true\x27 b value == \x27true\x27" := by decide

/-- What `publishDiscovery` hands to `this.mqtt.publish`: the discovery
topic and either the (possibly rewritten) payload or the empty delete
payload. -/
structure DiscoveryEmission where
  topic : String
  payload : Option (List (String × JSVal))

/-- The emission part of `Gateway.prototype.publishDiscovery` (the
`setDiscovery` bookkeeping it performs first is `setDiscovery` above):
descriptors with `ignoreDiscovery` are not published; under payload type
2 ("just value") every string-valued field of the discovery payload has
`value_json.value` rewritten to `value` — compared with `'true'` when
the payload carries both `payload_on` and `payload_off`; a delete
publishes the empty payload. -/
def publishDiscoveryEmission (hassDevice : HassDevice) (payloadType : Nat)
    (deleteDevice : Bool) : Option DiscoveryEmission :=
  if hassDevice.ignoreDiscovery then none
  else
    let p := hassDevice.discovery_payload
    let p :=
      if payloadType = 2 then
        let template := "value" ++
          (if objHas "payload_on" p ∧ objHas "payload_off" p then
            " == \x27true\x27" else "")
        p.map fun kv =>
          match kv.2 with
          | .str s => (kv.1, JSVal.str (jsReplaceAll s "value_json.value" template))
          | _ => kv
      else p
    some { topic := hassDevice.discoveryTopic
           payload := if deleteDevice then none else some p }

/-- C5: under the raw-value envelope (payload type 2), a discovery
payload containing both `payload_on` and `payload_off` is emitted with
every occurrence of `value_json.value` in every string-valued field
rewritten to `value == 'true'` (non-string fields and field order are
untouched). -/
theorem publishDiscovery_raw_template_rewrite (dev : HassDevice)
    (hon : objHas "payload_on" dev.discovery_payload = true)
    (hoff : objHas "payload_off" dev.discovery_payload = true)
    (hig : dev.ignoreDiscovery = false) :
    publishDiscoveryEmission dev 2 false =
      some { topic := dev.discoveryTopic
             payload := some (dev.discovery_payload.map fun kv =>
               match kv.2 with
               | .str s =>
                   (kv.1, JSVal.str
                     (jsReplaceAll s "value_json.value" "value == \x27true\x27"))
               | _ => kv) } := by
  rw [publishDiscoveryEmission, hig]
  simp only [Bool.false_eq_true, if_false, if_pos rfl, hon, hoff, and_self,
    if_true]
  rfl

/-- Witness for C5 on a one-field switch-like payload. -/
theorem publishDiscovery_raw_template_rewrite_witness :
    publishDiscoveryEmission
      { discoveryTopic := "switch/nodeID_7/switch/config"
        discovery_payload := [
          ("payload_on", .bool true), ("payload_off", .bool false),
          ("value_template", .str "\x7b\x7b value_json.value \x7d\x7d")] }
      2 false =
      some { topic := "switch/nodeID_7/switch/config"
             payload := some [
               ("payload_on", .bool true), ("payload_off", .bool false),
               ("value_template",
                 .str "\x7b\x7b value == \x27true\x27 \x7d\x7d")] } :=
  (publishDiscovery_raw_template_rewrite
    { discoveryTopic := "switch/nodeID_7/switch/config"
      discovery_payload := [
        ("payload_on", .bool true), ("payload_off", .bool false),
        ("value_template", .str "\x7b\x7b value_json.value \x7d\x7d")] }
    rfl rfl rfl).trans rfl

/-- The gateway configuration fields the verified fragment reads
(`this.config`): addressing mode `type` (0 = value ids, 1 = named,
2 = manual), payload envelope `payloadType` (1 = full object, 2 = raw
value, otherwise time–value), and the per-value override table. -/
structure GatewayConfig where
  type : Nat := 0
  payloadType : Nat := 0
  nodeNames : Bool := false
  ignoreLoc : Bool := false
  hassDiscovery : Bool := false
  includeNodeInfo : Bool := false
  values : List ValueConf := []

/-- `NODE_PREFIX` in `Gateway.js`. -/
def NODE_PREFIX : String := "nodeID_"

/-- Worker for `jsReplaceFirst`. -/
def replaceFirstGo (pat repl : List Char) : Nat → List Char → List Char
  | 0, s => s
  | fuel + 1, s =>
      match s with
      | [] => []
      | c :: cs =>
          if pat.isPrefixOf (c :: cs) then
            repl ++ cs.drop (pat.length - 1)
          else c :: replaceFirstGo pat repl fuel cs

/-- JS `str.replace(pat, repl)` with a plain string pattern: replace only
the first occurrence. -/
def jsReplaceFirst (s pat repl : String) : String :=
  if pat = "" then ⟨repl.data ++ s.data⟩
  else ⟨replaceFirstGo pat.data repl.data s.data.length s.data⟩

/-- `getIdWithoutNode(valueId)`:
`valueId.id.replace(valueId.nodeId + '-', '')`. -/
def getIdWithoutNode (valueId : ZValue) : String :=
  jsReplaceFirst valueId.id (jsNatStr valueId.nodeId ++ "-") ""

/-- `getNodeName(node, ignoreLoc)`:
`[<location>-]<name or nodeID_id>`. -/
def getNodeName (node : ZNode) (ignoreLoc : Bool) : String :=
  (match node.loc with
   | some l => if ¬ ignoreLoc ∧ l ≠ "" then l ++ "-" else ""
   | none => "") ++
  (match node.name with
   | some nm => if nm ≠ "" then nm else NODE_PREFIX ++ jsNatStr node.id
   | none => NODE_PREFIX ++ jsNatStr node.id)

/-- `Gateway.prototype.valueTopic(node, valueId)` (the topic component;
the `returnObject` variant additionally returns the matched `valueConf`
and the recursively resolved target topic, neither of which changes the
topic computed here).  `commandClassName` stands for
`Constants.commandClass`, modelled from the spec as an opaque
class-number → class-name map (`lib/Constants.js` is not among the
provided sources); the claims quantify over it or fix a concrete one. -/
def valueTopic (config : GatewayConfig) (node : ZNode) (valueId : ZValue)
    (commandClassName : Nat → String) : Option String :=
  let values := config.values.filter fun v => v.device = node.deviceId
  let valueConf :=
    if values.length > 0 then
      values.find? fun v => v.value_id = getIdWithoutNode valueId
    else none
  let nodeSeg : String :=
    match node.name with
    | some nm => if nm ≠ "" then nm else NODE_PREFIX ++ jsNatStr valueId.nodeId
    | none => NODE_PREFIX ++ jsNatStr valueId.nodeId
  let topic : List String :=
    match valueConf with
    | some vc =>
        match vc.topic with
        | some t => if t = "" then [] else [nodeSeg, t]
        | none => []
    | none => []
  let topic : List String :=
    if topic.isEmpty then
      match config.type with
      | 1 =>
          [nodeSeg, commandClassName valueId.commandClass,
            "endpoint_" ++ jsNatStr valueId.endpoint,
            removeSlash valueId.propertyName] ++
          (match valueId.propertyKey with
           | some pk => [removeSlash pk]
           | none => [])
      | 0 =>
          [(if ¬ config.nodeNames then jsNatStr valueId.nodeId else nodeSeg),
            jsNatStr valueId.commandClass, jsNatStr valueId.endpoint,
            removeSlash valueId.property] ++
          (match valueId.propertyKey with
           | some pk => [removeSlash pk]
           | none => [])
      | _ => []
    else topic
  if topic.isEmpty then none
  else
    let topic :=
      match node.loc with
      | some l => if l ≠ "" ∧ ¬ config.ignoreLoc then l :: topic else topic
      | none => topic
    some (String.intercalate "/" (topic.map fun t => sanitizeTopic t false))

/-- Splitting a char list on a separator, JS `String.prototype.split`
style: the empty string splits to one empty segment. -/
def jsSplitChars (sep : Char) : List Char → List (List Char)
  | [] => [[]]
  | c :: cs =>
      let rest := jsSplitChars sep cs
      if c = sep then [] :: rest
      else
        match rest with
        | r :: rs => (c :: r) :: rs
        | [] => [[c]]

/-- JS `str.split(sep)` for a one-character separator. -/
def jsSplit (s : String) (sep : Char) : List String :=
  (jsSplitChars sep s.data).map fun cs => ⟨cs⟩

/-- The NAMED-mode node of the specification's sanitization example. -/
def namedNodeC6 : ZNode :=
  { id := 9
    name := some "Living Room/Lamp"
    values := [("38-0-currentValue",
      { id := "9-38-0-currentValue", nodeId := 9, commandClass := 38,
        endpoint := 0, property := "currentValue",
        propertyName := "currentValue", writeable := false })] }

/-- The multilevel-switch value of `namedNodeC6`. -/
def namedValueC6 : ZValue :=
  { id := "9-38-0-currentValue", nodeId := 9, commandClass := 38,
    endpoint := 0, property := "currentValue",
    propertyName := "currentValue" }

/-- C6 counterexample: under NAMED mode the node named
`Living Room/Lamp` does NOT produce the segment `Living_Room-Lamp` —
the topic-segment sanitization call does not request slash replacement
and the slash is in the allowed character class, so the segment is
`Living_Room/Lamp` and the claimed segment appears nowhere in the
topic. -/
theorem named_segment_counterexample :
    valueTopic { type := 1 } namedNodeC6 namedValueC6
        (fun _ => "multilevel_switch") =
      some "Living_Room/Lamp/multilevel_switch/endpoint_0/currentValue"
    ∧ sanitizeTopic "Living Room/Lamp" false ≠ "Living_Room-Lamp"
    ∧ "Living_Room-Lamp" ∉
        jsSplit "Living_Room/Lamp/multilevel_switch/endpoint_0/currentValue"
          '/' := by
  refine ⟨by decide, by decide, by decide⟩

/-- C6 amended: under NAMED mode the node named `Living Room/Lamp`
yields the sanitized node segment `Living_Room/Lamp` — spaces become
`_`, disallowed characters are stripped, but `/` is kept because the
topic-segment call does not request slash replacement; the slash-replaced
form `Living_Room-Lamp` is produced only by the call sites that request
it (`sanitizeTopic(·, true)`, used for object ids and notification
labels).  Purely numeric segments pass through unchanged. -/
theorem named_segment_amended :
    valueTopic { type := 1 } namedNodeC6 namedValueC6
        (fun _ => "multilevel_switch") =
      some "Living_Room/Lamp/multilevel_switch/endpoint_0/currentValue"
    ∧ sanitizeTopic "Living Room/Lamp" false = "Living_Room/Lamp"
    ∧ sanitizeTopic "Living Room/Lamp" true = "Living_Room-Lamp"
    ∧ sanitizeTopic "42" false = "42" := by
  refine ⟨by decide, by decide, by decide, by decide⟩

/-- Interleave `/` between the characters of a list — the
`'+'.repeat(levels).split('').join('/')` wildcard construction. -/
def interleaveSlash : List Char → List Char
  | [] => []
  | [c] => [c]
  | c :: c2 :: rest => c :: '/' :: interleaveSlash (c2 :: rest)

/-- The wildcard subscription pattern for a topic depth:
`+/+/.../+` with `levels` plus signs. -/
def wildcardTopic (levels : Nat) : String :=
  ⟨interleaveSlash (List.replicate levels '+')⟩

theorem interleaveSlash_replicate_length (d : Nat) :
    (interleaveSlash (List.replicate d '+')).length = 2 * d - 1 := by
  induction d with
  | zero => rfl
  | succ n ih =>
      cases n with
      | zero => rfl
      | succ m =>
          rw [List.replicate_succ, List.replicate_succ, interleaveSlash,
            ← List.replicate_succ]
          simp only [List.length_cons, ih]
          omega

theorem wildcardTopic_injective {d e : Nat}
    (h : wildcardTopic d = wildcardTopic e) : d = e := by
  have hlen := congrArg (fun s => s.data.length) h
  simp only [wildcardTopic] at hlen
  rw [interleaveSlash_replicate_length, interleaveSlash_replicate_length] at hlen
  rcases Nat.eq_zero_or_pos d with hd | hd
  · rcases Nat.eq_zero_or_pos e with he | he
    · omega
    · subst hd
      have := congrArg (fun s => s.data) h
      simp only [wildcardTopic] at this
      rw [show List.replicate 0 '+' = [] from rfl] at this
      cases e with
      | zero => rfl
      | succ m =>
          exfalso
          rw [List.replicate_succ] at this
          cases hm : List.replicate m '+' with
          | nil => rw [hm] at this; exact List.noConfusion this.symm
          | cons a as => rw [hm] at this; exact List.noConfusion this.symm
  · rcases Nat.eq_zero_or_pos e with he | he
    · subst he
      have := congrArg (fun s => s.data) h
      simp only [wildcardTopic] at this
      rw [show List.replicate 0 '+' = [] from rfl] at this
      cases d with
      | zero => rfl
      | succ m =>
          exfalso
          rw [List.replicate_succ] at this
          cases hm : List.replicate m '+' with
          | nil => rw [hm] at this; exact List.noConfusion this
          | cons a as => rw [hm] at this; exact List.noConfusion this
    · omega

/-- The write-back subscription state: the Topic-Value Map
(`this.topicValues`) and the depths already subscribed
(`this.topicLevels`). -/
structure SubState where
  topicValues : List (String × ZValue) := []
  topicLevels : List Nat := []

/-- The write-back registration fragment of `onValueChanged` (lines
292–314): when the changed value is writeable and its topic is not yet
tracked, register it; if the topic's depth is new, record the depth and
issue one wildcard subscription (the returned list of subscribe calls). -/
def onValueChangedSubscribe (st : SubState) (topic : String)
    (valueId : ZValue) : SubState × List String :=
  if valueId.writeable ∧ ¬ objHas topic st.topicValues then
    if st.topicLevels.contains ((jsSplit topic '/').length) then
      ({ st with topicValues := objSet topic valueId st.topicValues }, [])
    else
      ({ topicValues := objSet topic valueId st.topicValues
         topicLevels := st.topicLevels ++ [(jsSplit topic '/').length] },
        [wildcardTopic ((jsSplit topic '/').length)])
  else (st, [])

/-- Run a sequence of value-change events through the subscription
fragment, collecting every subscribe call made. -/
def runValueEvents (st : SubState) :
    List (String × ZValue) → SubState × List String
  | [] => (st, [])
  | (t, v) :: rest =>
      let p := onValueChangedSubscribe st t v
      let q := runValueEvents p.1 rest
      (q.1, p.2 ++ q.2)

theorem onValueChangedSubscribe_cases (st : SubState) (topic : String)
    (v : ZValue) :
    ((onValueChangedSubscribe st topic v).1.topicLevels = st.topicLevels
      ∧ (onValueChangedSubscribe st topic v).2 = [])
    ∨ ∃ ℓ, ¬ st.topicLevels.contains ℓ
        ∧ (onValueChangedSubscribe st topic v).1.topicLevels =
            st.topicLevels ++ [ℓ]
        ∧ (onValueChangedSubscribe st topic v).2 = [wildcardTopic ℓ] := by
  rw [onValueChangedSubscribe]
  by_cases hc : v.writeable ∧ ¬ objHas topic st.topicValues
  · rw [if_pos hc]
    by_cases hl : st.topicLevels.contains ((jsSplit topic '/').length)
    · rw [if_pos hl]
      exact Or.inl ⟨rfl, rfl⟩
    · rw [if_neg hl]
      exact Or.inr ⟨(jsSplit topic '/').length, hl, rfl, rfl⟩
  · rw [if_neg hc]
    exact Or.inl ⟨rfl, rfl⟩

theorem runValueEvents_count :
    ∀ (events : List (String × ZValue)) (st : SubState) (d : Nat),
      (st.topicLevels.contains d = true →
        ((runValueEvents st events).2.count (wildcardTopic d)) = 0)
      ∧ ((runValueEvents st events).2.count (wildcardTopic d)) ≤ 1 := by
  intro events
  induction events with
  | nil =>
      intro st d
      exact ⟨fun _ => rfl, by simp [runValueEvents]⟩
  | cons e rest ih =>
      intro st d
      obtain ⟨t, v⟩ := e
      rw [runValueEvents]
      rcases onValueChangedSubscribe_cases st t v with
        ⟨hsame, hempty⟩ | ⟨ℓ, hnot, hlev, hsubs⟩
      · rw [hempty]
        simp only [List.nil_append]
        constructor
        · intro hmem
          exact (ih _ d).1 (by rw [hsame]; exact hmem)
        · exact (ih _ d).2
      · rw [hsubs]
        by_cases hdl : d = ℓ
        · subst hdl
          constructor
          · intro hmem
            exact absurd hmem (by simpa using hnot)
          · have hrest : ((runValueEvents (onValueChangedSubscribe st t v).1
                rest).2.count (wildcardTopic d)) = 0 := by
              apply (ih _ d).1
              rw [hlev]
              simp
            rw [List.count_append, hrest]
            simp [List.count_cons]
        · have hne : wildcardTopic d ≠ wildcardTopic ℓ :=
            fun h => hdl (wildcardTopic_injective h)
          have hone : ([wildcardTopic ℓ].count (wildcardTopic d)) = 0 := by
            simp [List.count_cons]
            exact fun h => absurd h.symm hne
          constructor
          · intro hmem
            rw [List.count_append, hone]
            simp only [Nat.zero_add]
            apply (ih _ d).1
            rw [hlev]
            simp only [List.contains_eq_any_beq, List.any_append] at hmem ⊢
            simp at hmem ⊢
            tauto
          · rw [List.count_append, hone]
            simp only [Nat.zero_add]
            exact (ih _ d).2

/-- C8: across any sequence of value-change events, at most one wildcard
subscription is issued per topic depth `d`; and a single event issues the
`d`-level wildcard exactly when it registers a writeable value whose
topic is untracked and whose depth is not yet in `topicLevels`. -/
theorem wildcard_subscription_once :
    (∀ (events : List (String × ZValue)) (d : Nat),
      ((runValueEvents {} events).2.count (wildcardTopic d)) ≤ 1)
    ∧ ∀ (st : SubState) (topic : String) (v : ZValue),
        (onValueChangedSubscribe st topic v).2 =
          (if v.writeable ∧ ¬ objHas topic st.topicValues
              ∧ ¬ st.topicLevels.contains ((jsSplit topic '/').length) then
            [wildcardTopic ((jsSplit topic '/').length)]
          else []) := by
  constructor
  · intro events d
    exact (runValueEvents_count events {} d).2
  · intro st topic v
    rw [onValueChangedSubscribe]
    by_cases hc : v.writeable ∧ ¬ objHas topic st.topicValues
    · rw [if_pos hc]
      by_cases hl : st.topicLevels.contains ((jsSplit topic '/').length)
      · rw [if_pos hl, if_neg]
        intro hfull
        exact hfull.2.2 hl
      · rw [if_neg hl, if_pos ⟨hc.1, hc.2, hl⟩]
    · rw [if_neg hc, if_neg]
      intro hfull
      exact hc ⟨hfull.1, hfull.2.1⟩

/-- JS truthiness of a runtime value ( `undefined`, `null`, `false`, `0`
and the empty string are falsy; every object is truthy). -/
def jsTruthy : JSVal → Bool
  | .undefined => false
  | .null => false
  | .bool b => b
  | .num n => n ≠ 0
  | .str s => s ≠ ""
  | .obj _ => true
  | .arr _ => true
  | .buf _ => true

/-- Does JS `typeof` yield `'object'` for this value (`null` included)? -/
def jsTypeofObject : JSVal → Bool
  | .null => true
  | .obj _ => true
  | .arr _ => true
  | .buf _ => true
  | _ => false

/-- `isNaN(str)` for a string: `Number(str)` is `NaN` — the empty or
all-whitespace string coerces to 0, otherwise an optional sign followed
by digits (with an optional decimal part) parses. -/
def jsIsNaNStr (s : String) : Bool :=
  let t := s.data.dropWhile Char.isWhitespace
  let t := t.reverse.dropWhile Char.isWhitespace |>.reverse
  match t with
  | [] => false
  | c :: cs =>
      let digits := if c = '+' ∨ c = '-' then cs else c :: cs
      ¬ (digits ≠ [] ∧ digits.all fun d => d.isDigit ∨ d = '.')

/-- `isNaN(v)`: coerce to number first (booleans and `null` coerce to
0/1, `undefined` and plain objects to `NaN`). -/
def jsIsNaN : JSVal → Bool
  | .num _ => false
  | .bool _ => false
  | .null => false
  | .str s => jsIsNaNStr s
  | .undefined => true
  | .obj _ => true
  | .arr _ => true
  | .buf _ => true

/-- A JS word character (`\w`): letter, digit or underscore. -/
def isWordChar (c : Char) : Bool :=
  (65 ≤ c.toNat ∧ c.toNat ≤ 90) ∨ (97 ≤ c.toNat ∧ c.toNat ≤ 122) ∨
    (48 ≤ c.toNat ∧ c.toNat ≤ 57) ∨ c = '_'

/-- Group a char list into maximal word-character runs. -/
def wordSplitGo : List Char → List (List Char)
  | [] => [[]]
  | c :: cs =>
      let rest := wordSplitGo cs
      if isWordChar c then
        match rest with
        | r :: rs => (c :: r) :: rs
        | [] => [[c]]
      else [] :: rest

/-- The lower-cased `\b`-delimited words of a string; `/\bword\b/i.test`
holds exactly when `word` is among them. -/
def wordsOf (s : String) : List String :=
  ((wordSplitGo (jsToLower s).data).filter fun w => ¬ w.isEmpty).map
    fun cs => ⟨cs⟩

/-- `CommandClasses['Binary Toggle Switch']` (0x28). -/
def ccBinaryToggleSwitch : Nat := 40

/-- `CommandClasses['Multilevel Toggle Switch']` (0x29). -/
def ccMultilevelToggleSwitch : Nat := 41

/-- `CommandClasses['Thermostat Fan Mode']` (0x44). -/
def ccThermostatFanMode : Nat := 68

/-- JS `v > 0` for the stored value of a toggle (numbers compare
numerically, `true` coerces to 1). -/
def jsGtZero : JSVal → Bool
  | .num q => 0 < q
  | .bool b => b
  | _ => false

/-- Object lookup `map[payload]`: a string payload is used as the key,
anything else that reaches this point indexes a missing key and yields
`undefined`. -/
def hassMapLookup (map : List (String × JSVal)) : JSVal → JSVal
  | .str s => (objGet s map).getD .undefined
  | _ => .undefined

/-- The Home-Assistant payload-parsing block of `parsePayload` (run only
when the value is in the Discovered Map): free-text boolean coercion,
boolean → min/max for numeric values, mode-map / fan-mode-map lookup for
list values, and the toggle-class trigger sentinels. -/
def hassTransform (hassDevice : HassDevice) (valueId : ZValue)
    (p0 : JSVal) : JSVal :=
  let p : JSVal :=
    match p0 with
    | .str s =>
        if jsIsNaNStr s then
          if (wordsOf s).any fun w => w = "true" ∨ w = "on" ∨ w = "lock" then
            .bool true
          else if (wordsOf s).any fun w =>
              w = "false" ∨ w = "off" ∨ w = "unlock" then
            .bool false
          else p0
        else p0
    | _ => p0
  let p : JSVal :=
    match p with
    | .bool b =>
        if valueId.type = "number" then
          .num (if b then valueId.max else valueId.min)
        else p
    | _ => p
  let p :=
    if valueId.list ∧ jsIsNaN p then
      if valueId.commandClass = ccThermostatFanMode ∧
          hassDevice.fan_mode_map.isSome then
        hassMapLookup (hassDevice.fan_mode_map.getD []) p
      else if valueId.commandClass = ccThermostatMode ∧
          hassDevice.mode_map.isSome then
        hassMapLookup (hassDevice.mode_map.getD []) p
      else p
    else p
  if valueId.commandClass = ccBinaryToggleSwitch then .num 1
  else if valueId.commandClass = ccMultilevelToggleSwitch then
    if jsGtZero valueId.value then .num 0 else .num 255
  else p

/-- The envelope unwrap at the top of `parsePayload`:
`typeof payload === 'object' && payload.hasOwnProperty('value')` — on
`null` the `hasOwnProperty` call itself throws (`typeof null` is
`'object'`), which the surrounding catch turns into "return the payload
as it stands". -/
def unwrapEnvelope : JSVal → Except JSVal JSVal
  | .null => .error .null
  | .obj fs =>
      if objHas "value" fs then .ok ((objGet "value" fs).getD .undefined)
      else .ok (.obj fs)
  | p => .ok p

/-- A byte of a JS number as `Buffer.from` truncates it. -/
def byteOfNum : JSVal → Option Nat
  | .num q => some (q.num.toNat % 256)
  | _ => none

/-- The buffer-normalization step of `parsePayload` for `'any'`-typed
values: a `{type:'Buffer', data:[...]}` JSON envelope is rebuilt into a
buffer; otherwise `Buffer.from(payload)` accepts strings, arrays and
buffers and throws a `TypeError` on anything else (the model also
reports an error for the object shapes on which the Node call would
throw). -/
def bufferJsonEnvelope (fs : List (String × JSVal)) : Bool :=
  (match objGet "type" fs with
   | some (.str t) => t = "Buffer"
   | _ => false) &&
  (match objGet "data" fs with
   | some d => jsTruthy d
   | none => false)

/-- See `bufferNormalize`. -/
def bufferNormalizeObj (fs : List (String × JSVal)) : Except JSVal JSVal :=
  if bufferJsonEnvelope fs then
    match objGet "data" fs with
    | some (.arr xs) => .ok (.buf (xs.filterMap byteOfNum))
    | _ => .error (.obj fs)
  else .error (.obj fs)

/-- The buffer-normalization step of `parsePayload` (continued). -/
def bufferNormalize : JSVal → Except JSVal JSVal
  | .obj fs => bufferNormalizeObj fs
  | .str s => .ok (.buf (s.data.map fun c => c.toNat % 256))
  | .arr xs => .ok (.buf (xs.filterMap byteOfNum))
  | .buf b => .ok (.buf b)
  | p => .error p

/-- `isValidOperation(op)`: present, non-empty, and made only of digits,
dots, parentheses, commas and the four arithmetic operators. -/
def isValidOperation : Option String → Bool
  | none => false
  | some op =>
      op ≠ "" ∧ op.data.all fun c =>
        c.isDigit ∨ c = '.' ∨ c = '(' ∨ c = ')' ∨ c = '-' ∨ c = '+' ∨
          c = '*' ∨ c = '/' ∨ c = ','

/-- The write-side inversion of a post-operation string: the first `/`
becomes `*`; otherwise every `*` becomes `/` (the source uses the `g`
flag only here); otherwise the first `+` becomes `-`; otherwise the
first `-` becomes `+`. -/
def invertOp (op : String) : String :=
  if op.data.contains '/' then jsReplaceFirst op "/" "*"
  else if op.data.contains '*' then jsReplaceAll op "*" "/"
  else if op.data.contains '+' then jsReplaceFirst op "+" "-"
  else if op.data.contains '-' then jsReplaceFirst op "-" "+"
  else op

/-- A numeral of the restricted operation charset, as a rational. -/
def parseOpNumeral (cs : List Char) : Option ℚ :=
  if cs ≠ [] ∧ cs.all Char.isDigit then
    some ((digsVal cs : Nat) : ℚ)
  else none

/-- Model of `eval(payload + op)` for the operation strings the gateway
actually builds: a numeric payload followed by one operator and an
integer numeral evaluates arithmetically; any other combination is
reported as an error (standing for the `eval` outcomes — `NaN`s and
syntax errors — that make the decoded payload unusable). -/
def jsEvalPayloadOp (p : JSVal) (op : String) : Except JSVal JSVal :=
  match p with
  | .num q =>
      match op.data with
      | o :: rest =>
          (match parseOpNumeral rest with
           | some r =>
               if o = '+' then .ok (.num (q + r))
               else if o = '-' then .ok (.num (q - r))
               else if o = '*' then .ok (.num (q * r))
               else if o = '/' then
                 if r = 0 then .error p else .ok (.num (q / r))
               else .error p
           | none => .error p)
      | [] => .error p
  | _ => .error p

/-- `Gateway.prototype.parsePayload` without its surrounding catch: the
envelope unwrap, the Home-Assistant coercions (when the value id is in
the Discovered Map), buffer normalization for `'any'`-typed values, the
inverse post-operation, and the custom receive hook (`evalFunction`
catches the hook's own failures and yields `null`, modelled by the
`hook` oracle returning `none`).  An `error e` outcome means the JS body
raised with the payload standing at `e`. -/
def parsePayloadE (discovered : DiscMap) (payload : JSVal)
    (valueId : ZValue) (valueConf : Option ValueConf)
    (hook : JSVal → Option JSVal) : Except JSVal JSVal :=
  match unwrapEnvelope payload with
  | .error e => .error e
  | .ok p0 =>
      let p1 : JSVal :=
        match objGet valueId.id discovered with
        | some hassDevice => hassTransform hassDevice valueId p0
        | none => p0
      match (if valueId.type = "any" then bufferNormalize p1 else .ok p1) with
      | .error e => .error e
      | .ok p2 =>
          match (match valueConf with
            | some vc =>
                if isValidOperation vc.postOperation then
                  jsEvalPayloadOp p2 (invertOp (vc.postOperation.getD ""))
                else .ok p2
            | none => .ok p2) with
          | .error e => .error e
          | .ok p3 =>
              .ok (match valueConf with
                | some vc =>
                    if vc.parseReceive then
                      match hook p3 with
                      | some parsed => parsed
                      | none => p3
                    else p3
                | none => p3)

/-- `Gateway.prototype.parsePayload`: the body above wrapped in the
catch that logs the error and returns the payload as it stands. -/
def parsePayload (discovered : DiscMap) (payload : JSVal)
    (valueId : ZValue) (valueConf : Option ValueConf)
    (hook : JSVal → Option JSVal) : JSVal :=
  match parsePayloadE discovered payload valueId valueConf hook with
  | .ok p => p
  | .error p => p

/-- The field projection of a `ZValue` as `copy(valueId)` JSON-serializes
it for the full-object envelope. -/
def valueIdToObj (valueId : ZValue) : List (String × JSVal) :=
  [("id", .str valueId.id), ("nodeId", .num valueId.nodeId),
   ("commandClass", .num valueId.commandClass),
   ("endpoint", .num valueId.endpoint),
   ("property", .str valueId.property), ("type", .str valueId.type),
   ("writeable", .bool valueId.writeable), ("value", valueId.value)]

/-- The `nodeName`/`nodeLocation` annotation `onValueChanged` adds when
`includeNodeInfo` is set and the envelope is an object. -/
def addNodeInfoFields (d : JSVal) (node : ZNode) : JSVal :=
  match d with
  | .obj fs =>
      .obj (objSet "nodeLocation"
        (match node.loc with | some l => .str l | none => .undefined)
        (objSet "nodeName"
          (match node.name with | some nm => .str nm | none => .undefined) fs))
  | _ => d

/-- The envelope construction of `onValueChanged` (lines 273–291):
payload type 1 wraps the whole value-id object with the transformed
value, payload type 2 publishes the raw value, anything else the
`{time, value}` pair; object envelopes are then annotated with node
name/location when `includeNodeInfo` is set.  `tmpVal` is the value
after the configured post-operation / send hook (the raw `valueId.value`
when neither is configured). -/
def onValueChangedEnvelope (config : GatewayConfig) (node : ZNode)
    (valueId : ZValue) (tmpVal : JSVal) (now : ℚ) : JSVal :=
  let data : JSVal :=
    if config.payloadType = 1 then
      .obj (objSet "value" tmpVal (valueIdToObj valueId))
    else if config.payloadType = 2 then tmpVal
    else .obj [("time", .num now), ("value", tmpVal)]
  if config.includeNodeInfo ∧ jsTypeofObject data then
    addNodeInfoFields data node
  else data

/-- JS `parts.join('/')`. -/
def jsJoinSlash : List String → String
  | [] => ""
  | [s] => s
  | s :: rest => s ++ "/" ++ jsJoinSlash rest

/-- `onWriteRequest(parts, payload)`: look the joined topic up in the
Topic-Value Map; when found, decode the payload with `parsePayload` and
issue the device write (`this.zwave.writeValue`), returned as
`some (valueId, decoded payload)`; `none` means no write was issued. -/
def onWriteRequest (topicValues : List (String × (ZValue × Option ValueConf)))
    (discovered : DiscMap) (hook : JSVal → Option JSVal)
    (parts : List String) (payload : JSVal) : Option (ZValue × JSVal) :=
  match objGet (jsJoinSlash parts) topicValues with
  | none => none
  | some (valueId, conf) =>
      some (valueId, parsePayload discovered payload valueId conf hook)

theorem objGet_objSet_self [DecidableEq κ] (k : κ) (v : α)
    (o : List (κ × α)) : objGet k (objSet k v o) = some v := by
  induction o with
  | nil => simp [objSet, objGet]
  | cons kv rest ih =>
      obtain ⟨k', v'⟩ := kv
      by_cases hk : k' = k
      · rw [objSet, if_pos hk, objGet, if_pos rfl]
      · rw [objSet, if_neg hk, objGet, if_neg hk]
        exact ih

theorem objGet_objSet_ne [DecidableEq κ] {k k' : κ} (h : k' ≠ k) (v : α)
    (o : List (κ × α)) : objGet k (objSet k' v o) = objGet k o := by
  induction o with
  | nil => simp [objSet, objGet, h]
  | cons kv rest ih =>
      obtain ⟨k'', v''⟩ := kv
      by_cases hk : k'' = k'
      · rw [objSet, if_pos hk, objGet, if_neg h, objGet, hk, if_neg]
        intro he
        exact h he
      · rw [objSet, if_neg hk, objGet, objGet]
        by_cases hkk : k'' = k
        · rw [if_pos hkk, if_pos hkk]
        · rw [if_neg hkk, if_neg hkk]
          exact ih

theorem addNodeInfoFields_obj (fs : List (String × JSVal)) (node : ZNode) :
    addNodeInfoFields (.obj fs) node =
      .obj (objSet "nodeLocation"
        (match node.loc with | some l => .str l | none => .undefined)
        (objSet "nodeName"
          (match node.name with | some nm => .str nm | none => .undefined)
          fs)) := rfl

theorem unwrapEnvelope_obj_value {fs : List (String × JSVal)} {v : JSVal}
    (h : objGet "value" fs = some v) : unwrapEnvelope (.obj fs) = .ok v := by
  simp [unwrapEnvelope, objHas, h]

/-- C2 amended: the decode of an encode is the identity for every
primitive (boolean / number / string) device value in every envelope
mode, provided additionally that the value id is not registered in the
Discovered Map (otherwise the Home-Assistant coercions rewrite textual
and boolean payloads) and that the value is not buffer-typed
(`type = 'any'`); no valid post-operation and no receive hook are
configured, as the claim already requires. -/
theorem parse_encode_roundtrip (config : GatewayConfig) (node : ZNode)
    (valueId : ZValue) (discovered : DiscMap) (valueConf : Option ValueConf)
    (hook : JSVal → Option JSVal) (v : JSVal) (now : ℚ)
    (hdisc : objGet valueId.id discovered = none)
    (htype : valueId.type ≠ "any")
    (hconf : ∀ vc, valueConf = some vc →
      isValidOperation vc.postOperation = false ∧ vc.parseReceive = false)
    (hprim : (match v with
      | .bool _ => True | .num _ => True | .str _ => True | _ => False)) :
    parsePayload discovered (onValueChangedEnvelope config node valueId v now)
      valueId valueConf hook = v := by
  have hunwrap : unwrapEnvelope
      (onValueChangedEnvelope config node valueId v now) = .ok v := by
    rw [onValueChangedEnvelope]
    by_cases h1 : config.payloadType = 1
    · rw [if_pos h1]
      by_cases hni : config.includeNodeInfo ∧
          jsTypeofObject (.obj (objSet "value" v (valueIdToObj valueId)))
      · rw [if_pos hni, addNodeInfoFields_obj]
        exact unwrapEnvelope_obj_value (by
          rw [objGet_objSet_ne (by decide), objGet_objSet_ne (by decide),
            objGet_objSet_self])
      · rw [if_neg hni]
        exact unwrapEnvelope_obj_value (objGet_objSet_self _ _ _)
    · by_cases h2 : config.payloadType = 2
      · rw [if_neg h1, if_pos h2]
        have hobj : jsTypeofObject v = false := by
          match v, hprim with
          | .bool b, _ => rfl
          | .num q, _ => rfl
          | .str s, _ => rfl
        rw [if_neg]
        · match v, hprim with
          | .bool b, _ => rfl
          | .num q, _ => rfl
          | .str s, _ => rfl
        · intro hc
          rw [hobj] at hc
          exact Bool.noConfusion hc.2
      · rw [if_neg h1, if_neg h2]
        by_cases hni : config.includeNodeInfo ∧
            jsTypeofObject (.obj [("time", .num now), ("value", v)])
        · rw [if_pos hni, addNodeInfoFields_obj]
          exact unwrapEnvelope_obj_value (by
            rw [objGet_objSet_ne (by decide), objGet_objSet_ne (by decide)]
            rfl)
        · rw [if_neg hni]
          exact unwrapEnvelope_obj_value rfl
  rw [parsePayload]
  simp only [parsePayloadE, hunwrap, hdisc]
  rw [if_neg htype]
  match valueConf, hconf with
  | none, _ => rfl
  | some vc, hconf =>
      have h := hconf vc rfl
      simp only [h.1, Bool.false_eq_true, if_false, h.2]

/-- Witness for C2's amended round trip at a concrete boolean value in
the time–value envelope. -/
theorem parse_encode_roundtrip_witness :
    parsePayload []
      (onValueChangedEnvelope { payloadType := 0 } {}
        { id := "7-37-0-targetValue", type := "boolean" } (.bool true) 0)
      { id := "7-37-0-targetValue", type := "boolean" } none (fun _ => none) =
      .bool true :=
  parse_encode_roundtrip { payloadType := 0 } {}
    { id := "7-37-0-targetValue", type := "boolean" } [] none (fun _ => none)
    (.bool true) 0 rfl (by decide) (fun _ h => Option.noConfusion h) trivial

/-- The discovered string-typed value of C2's counterexample. -/
def textValueC2 : ZValue :=
  { id := "3-49-0-someText", nodeId := 3, commandClass := 49,
    type := "string" }

/-- C2 counterexample: the claim fails as stated — for a value that is
registered in the Discovered Map (no post-operation, no hook), encoding
the representable string value `on` under the raw-value envelope and
decoding it back yields the boolean `true`, not `on` (the
Home-Assistant free-text coercion in `parsePayload` rewrites it). -/
theorem parse_encode_roundtrip_cex :
    parsePayload [("3-49-0-someText", ({} : HassDevice))]
      (onValueChangedEnvelope { payloadType := 2 } {} textValueC2
        (.str "on") 0)
      textValueC2 none (fun _ => none) = .bool true
    ∧ JSVal.bool true ≠ JSVal.str "on" :=
  ⟨rfl, fun h => JSVal.noConfusion h⟩

/-- C7 amended: when the decode raises inside `parsePayload`, the
exception is caught and logged there and the payload as it stood at the
failure point is returned; `onWriteRequest` then still issues the device
write with that payload — the write is not skipped. -/
theorem write_request_on_parse_error
    (topicValues : List (String × (ZValue × Option ValueConf)))
    (discovered : DiscMap) (hook : JSVal → Option JSVal)
    (parts : List String) (payload p : JSVal) (valueId : ZValue)
    (conf : Option ValueConf)
    (hfound : objGet (jsJoinSlash parts) topicValues = some (valueId, conf))
    (herr : parsePayloadE discovered payload valueId conf hook = .error p) :
    onWriteRequest topicValues discovered hook parts payload =
      some (valueId, p) := by
  simp only [onWriteRequest, hfound, parsePayload, herr]

/-- Witness for C7's amended behaviour: a `null` payload makes the
envelope unwrap throw, and the write is still issued with `null`. -/
theorem write_request_on_parse_error_witness :
    onWriteRequest [("a/b", ({ id := "2-37-0-targetValue" }, none))] []
      (fun _ => none) ["a", "b"] .null =
      some ({ id := "2-37-0-targetValue" }, .null) :=
  write_request_on_parse_error _ _ _ _ _ _ _ _ rfl rfl

/-- C7 counterexample: the claim fails as stated — at the concrete
inbound write with payload `null`, `parsePayload`'s body raises (in the
envelope unwrap), yet `onWriteRequest` still issues a write command to
the driver (the result is not `none`). -/
theorem write_request_parse_error_cex :
    parsePayloadE [] JSVal.null { id := "2-37-0-targetValue" } none
      (fun _ => none) = .error .null
    ∧ onWriteRequest [("a/b", ({ id := "2-37-0-targetValue" }, none))] []
        (fun _ => none) ["a", "b"] .null ≠ none :=
  ⟨rfl, fun h => Option.noConfusion h⟩
